import Mathlib

/-!
Shallow embedding of the GuestDJ server room state machine
(src/server/index.js): room store, authorization guard, queue engine
and broadcast layer.  Timestamps (`new Date()`) are modelled as `Nat`
instants supplied by the caller; the `nanoid` identifiers are modelled
as `String` values supplied as explicit fresh-identifier parameters.
Credentials arriving over the socket may be absent (`undefined` in JS),
hence are modelled as `Option String`; `undefined === token` is `false`,
i.e. the guard only passes when the supplied option equals
`some room.adminToken`.
-/

/-- A song entry as stored in the guest queue or fallback playlist:
the guest-supplied display fields plus the server-assigned entry
identifier and insertion timestamp (src/server/index.js lines 325-330,
395-399). -/
structure Song where
  videoId : String
  title : String
  thumbnail : String
  channel : String
  duration : String
  id : String
  addedAt : Nat
  addedBy : Option String
  deriving DecidableEq, Repr

/-- A guest-submitted song payload, before the server assigns the entry
identifier and timestamp.  `addedBy` is optional because the JS payload
may omit it. -/
structure SongInput where
  videoId : String
  title : String
  thumbnail : String
  channel : String
  duration : String
  addedBy : Option String
  deriving DecidableEq, Repr

/-- JS `x || 'Guest'`: `undefined` and the empty string are falsy. -/
def jsOrElse (o : Option String) (d : String) : String :=
  match o with
  | some s => if s = "" then d else s
  | none => d

/-- The song record pushed by the add-song handler: spread of the
payload, fresh id, timestamp, and `addedBy: song.addedBy || 'Guest'`
(src/server/index.js lines 325-330). -/
def mkQueueSong (input : SongInput) (freshId : String) (now : Nat) : Song :=
  { videoId := input.videoId, title := input.title,
    thumbnail := input.thumbnail, channel := input.channel,
    duration := input.duration, id := freshId, addedAt := now,
    addedBy := some (jsOrElse input.addedBy "Guest") }

/-- The song record pushed by the add-to-fallback handler: spread of the
payload, fresh id and timestamp; `addedBy` passes through unchanged
(src/server/index.js lines 395-399). -/
def mkFallbackSong (input : SongInput) (freshId : String) (now : Nat) : Song :=
  { videoId := input.videoId, title := input.title,
    thumbnail := input.thumbnail, channel := input.channel,
    duration := input.duration, id := freshId, addedAt := now,
    addedBy := input.addedBy }

/-- A room record (src/server/index.js lines 175-187). -/
structure Room where
  id : String
  adminToken : String
  hostName : String
  queue : List Song
  fallbackPlaylist : List Song
  fallbackIndex : Nat
  currentSong : Option Song
  currentSongStartedAt : Option Nat
  isPlaying : Bool
  isPlayingFallback : Bool
  createdAt : Nat
  deriving DecidableEq, Repr

/-- The in-memory room store (`const rooms = new Map()`), modelled as an
association list from room identifier to room record. -/
abbrev Rooms : Type := List (String × Room)

/-- `createRoom(hostName)` (src/server/index.js lines 171-190): fresh
room id and admin token are supplied as parameters standing for the
`nanoid` calls. -/
def createRoom (rooms : Rooms) (hostName roomId adminToken : String)
    (now : Nat) : Rooms :=
  (roomId,
    { id := roomId, adminToken := adminToken, hostName := hostName,
      queue := [], fallbackPlaylist := [], fallbackIndex := 0,
      currentSong := none, currentSongStartedAt := none,
      isPlaying := false, isPlayingFallback := false,
      createdAt := now }) :: rooms

/-- `getRoom(roomId)` / `rooms.get(roomId)` (src/server/index.js
lines 193-195). -/
def getRoom (rooms : Rooms) (roomId : String) : Option Room :=
  (rooms.find? (fun p => p.1 = roomId)).map Prod.snd

/-- Commit an updated room record back to the store (the JS code mutates
the room object held in the map in place; functionally this replaces the
entry for `roomId`). -/
def setRoom (rooms : Rooms) (roomId : String) (room : Room) : Rooms :=
  rooms.map (fun p => if p.1 = roomId then (p.1, room) else p)

/-- A notification broadcast to the subscribers of a room
(`io.to(roomId).emit(...)` / `socket.emit(...)`). -/
inductive Emit where
  | roomState (queue : List Song) (currentSong : Option Song)
      (isPlaying : Bool)
  | queueUpdated (queue : List Song)
  | nowPlaying (song : Option Song) (startedAt : Option Nat)
      (isPlayingFallback : Bool)
  | fallbackUpdated (playlist : List Song)
  | fallbackIndexUpdated (index : Nat)
  | playStateChanged (isPlaying : Bool)
  deriving DecidableEq, Repr

/-- The join-room handler (src/server/index.js lines 305-319).  `sess`
is the session's current room subscription (`socket.roomId`); the
handler returns the (unchanged) store, the new subscription and the
emitted snapshot. -/
def handleJoinRoom (rooms : Rooms) (sess : Option String)
    (roomId : String) : Rooms × Option String × List Emit :=
  match getRoom rooms roomId with
  | some room =>
      (rooms, some roomId,
        [Emit.roomState room.queue room.currentSong room.isPlaying])
  | none => (rooms, sess, [])

/-- The add-song handler (src/server/index.js lines 322-336): appends
the wrapped song to the tail of the guest queue; no credential is
consulted. -/
def handleAddSong (rooms : Rooms) (roomId : String) (song : SongInput)
    (freshId : String) (now : Nat) : Rooms × List Emit :=
  match getRoom rooms roomId with
  | some room =>
      let songWithId := mkQueueSong song freshId now
      let room' := { room with queue := room.queue ++ [songWithId] }
      (setRoom rooms roomId room', [Emit.queueUpdated room'.queue])
  | none => (rooms, [])

/-- The remove-song handler (src/server/index.js lines 339-345). -/
def handleRemoveSong (rooms : Rooms) (roomId : String) (songId : String)
    (adminToken : Option String) : Rooms × List Emit :=
  match getRoom rooms roomId with
  | some room =>
      if adminToken = some room.adminToken then
        let room' :=
          { room with queue := room.queue.filter (fun s => s.id ≠ songId) }
        (setRoom rooms roomId room', [Emit.queueUpdated room'.queue])
      else (rooms, [])
  | none => (rooms, [])

/-- The reorder-queue handler (src/server/index.js lines 348-354): the
client-supplied list replaces the queue wholesale. -/
def handleReorderQueue (rooms : Rooms) (roomId : String)
    (queue : List Song) (adminToken : Option String) : Rooms × List Emit :=
  match getRoom rooms roomId with
  | some room =>
      if adminToken = some room.adminToken then
        let room' := { room with queue := queue }
        (setRoom rooms roomId room', [Emit.queueUpdated room'.queue])
      else (rooms, [])
  | none => (rooms, [])

/-- The play-next handler (src/server/index.js lines 357-377).  Note:
unlike song-ended and skip-song it has no final else branch — when both
the guest queue and the fallback playlist are empty nothing happens. -/
def handlePlayNext (rooms : Rooms) (roomId : String)
    (adminToken : Option String) (now : Nat) : Rooms × List Emit :=
  match getRoom rooms roomId with
  | some room =>
      if adminToken = some room.adminToken then
        match room.queue with
        | s :: rest =>
            let room' :=
              { room with
                currentSong := some s,
                currentSongStartedAt := some now,
                isPlaying := true,
                isPlayingFallback := false,
                queue := rest }
            (setRoom rooms roomId room',
              [Emit.nowPlaying (some s) (some now) false,
               Emit.queueUpdated rest])
        | [] =>
            if room.fallbackPlaylist.length > 0 then
              let s := room.fallbackPlaylist[room.fallbackIndex]?
              let newIndex :=
                (room.fallbackIndex + 1) % room.fallbackPlaylist.length
              let room' :=
                { room with
                  currentSong := s,
                  currentSongStartedAt := some now,
                  fallbackIndex := newIndex,
                  isPlaying := true,
                  isPlayingFallback := true }
              (setRoom rooms roomId room',
                [Emit.nowPlaying s (some now) true,
                 Emit.fallbackIndexUpdated newIndex])
            else (rooms, [])
      else (rooms, [])
  | none => (rooms, [])

/-- The set-current-song handler (src/server/index.js lines 380-389). -/
def handleSetCurrentSong (rooms : Rooms) (roomId : String) (song : Song)
    (adminToken : Option String) (now : Nat) : Rooms × List Emit :=
  match getRoom rooms roomId with
  | some room =>
      if adminToken = some room.adminToken then
        let room' :=
          { room with
            currentSong := some song,
            currentSongStartedAt := some now,
            isPlaying := true,
            isPlayingFallback := false }
        (setRoom rooms roomId room',
          [Emit.nowPlaying (some song) (some now) false])
      else (rooms, [])
  | none => (rooms, [])

/-- The add-to-fallback handler (src/server/index.js lines 392-403). -/
def handleAddToFallback (rooms : Rooms) (roomId : String)
    (song : SongInput) (freshId : String) (now : Nat)
    (adminToken : Option String) : Rooms × List Emit :=
  match getRoom rooms roomId with
  | some room =>
      if adminToken = some room.adminToken then
        let songWithId := mkFallbackSong song freshId now
        let room' := { room with
          fallbackPlaylist := room.fallbackPlaylist ++ [songWithId] }
        (setRoom rooms roomId room',
          [Emit.fallbackUpdated room'.fallbackPlaylist])
      else (rooms, [])
  | none => (rooms, [])

/-- The remove-from-fallback handler (src/server/index.js
lines 406-415): filters the playlist and clamps the cursor back to 0
when it falls past the new end. -/
def handleRemoveFromFallback (rooms : Rooms) (roomId : String)
    (songId : String) (adminToken : Option String) : Rooms × List Emit :=
  match getRoom rooms roomId with
  | some room =>
      if adminToken = some room.adminToken then
        let newPlaylist := room.fallbackPlaylist.filter
          (fun s => s.id ≠ songId)
        let newIndex :=
          if room.fallbackIndex ≥ newPlaylist.length then 0
          else room.fallbackIndex
        let room' :=
          { room with
            fallbackPlaylist := newPlaylist,
            fallbackIndex := newIndex }
        (setRoom rooms roomId room',
          [Emit.fallbackUpdated newPlaylist])
      else (rooms, [])
  | none => (rooms, [])

/-- The reorder-fallback handler (src/server/index.js lines 418-424):
the client-supplied list replaces the playlist wholesale; the cursor is
not touched. -/
def handleReorderFallback (rooms : Rooms) (roomId : String)
    (playlist : List Song) (adminToken : Option String) :
    Rooms × List Emit :=
  match getRoom rooms roomId with
  | some room =>
      if adminToken = some room.adminToken then
        let room' := { room with fallbackPlaylist := playlist }
        (setRoom rooms roomId room',
          [Emit.fallbackUpdated room'.fallbackPlaylist])
      else (rooms, [])
  | none => (rooms, [])

/-- The toggle-play handler (src/server/index.js lines 427-433). -/
def handleTogglePlay (rooms : Rooms) (roomId : String) (isPlaying : Bool)
    (adminToken : Option String) : Rooms × List Emit :=
  match getRoom rooms roomId with
  | some room =>
      if adminToken = some room.adminToken then
        let room' := { room with isPlaying := isPlaying }
        (setRoom rooms roomId room', [Emit.playStateChanged isPlaying])
      else (rooms, [])
  | none => (rooms, [])

/-- The song-ended handler (src/server/index.js lines 436-464): guest
queue first, else fallback playlist at the cursor (advancing it
cyclically), else clear everything. -/
def handleSongEnded (rooms : Rooms) (roomId : String)
    (adminToken : Option String) (now : Nat) : Rooms × List Emit :=
  match getRoom rooms roomId with
  | some room =>
      if adminToken = some room.adminToken then
        match room.queue with
        | s :: rest =>
            let room' :=
              { room with
                currentSong := some s,
                currentSongStartedAt := some now,
                isPlaying := true,
                isPlayingFallback := false,
                queue := rest }
            (setRoom rooms roomId room',
              [Emit.nowPlaying (some s) (some now) false,
               Emit.queueUpdated rest])
        | [] =>
            if room.fallbackPlaylist.length > 0 then
              let s := room.fallbackPlaylist[room.fallbackIndex]?
              let newIndex :=
                (room.fallbackIndex + 1) % room.fallbackPlaylist.length
              let room' :=
                { room with
                  currentSong := s,
                  currentSongStartedAt := some now,
                  fallbackIndex := newIndex,
                  isPlaying := true,
                  isPlayingFallback := true }
              (setRoom rooms roomId room',
                [Emit.nowPlaying s (some now) true,
                 Emit.fallbackIndexUpdated newIndex])
            else
              let room' :=
                { room with
                  currentSong := none,
                  currentSongStartedAt := none,
                  isPlaying := false,
                  isPlayingFallback := false }
              (setRoom rooms roomId room',
                [Emit.nowPlaying none none false])
      else (rooms, [])
  | none => (rooms, [])

/-- The skip-song handler (src/server/index.js lines 467-493): its body
is textually identical to the song-ended handler's. -/
def handleSkipSong (rooms : Rooms) (roomId : String)
    (adminToken : Option String) (now : Nat) : Rooms × List Emit :=
  match getRoom rooms roomId with
  | some room =>
      if adminToken = some room.adminToken then
        match room.queue with
        | s :: rest =>
            let room' :=
              { room with
                currentSong := some s,
                currentSongStartedAt := some now,
                isPlaying := true,
                isPlayingFallback := false,
                queue := rest }
            (setRoom rooms roomId room',
              [Emit.nowPlaying (some s) (some now) false,
               Emit.queueUpdated rest])
        | [] =>
            if room.fallbackPlaylist.length > 0 then
              let s := room.fallbackPlaylist[room.fallbackIndex]?
              let newIndex :=
                (room.fallbackIndex + 1) % room.fallbackPlaylist.length
              let room' :=
                { room with
                  currentSong := s,
                  currentSongStartedAt := some now,
                  fallbackIndex := newIndex,
                  isPlaying := true,
                  isPlayingFallback := true }
              (setRoom rooms roomId room',
                [Emit.nowPlaying s (some now) true,
                 Emit.fallbackIndexUpdated newIndex])
            else
              let room' :=
                { room with
                  currentSong := none,
                  currentSongStartedAt := none,
                  isPlaying := false,
                  isPlayingFallback := false }
              (setRoom rooms roomId room',
                [Emit.nowPlaying none none false])
      else (rooms, [])
  | none => (rooms, [])

/-- The public room view returned by `GET /api/rooms/:roomId`
(src/server/index.js lines 268-283): every field of the response, and
nothing else. -/
structure PublicRoomView where
  id : String
  hostName : String
  queue : List Song
  currentSong : Option Song
  currentSongStartedAt : Option Nat
  isPlaying : Bool
  isPlayingFallback : Bool
  deriving DecidableEq, Repr

/-- Project a room record to its public view (src/server/index.js
lines 274-282). -/
def publicRoomView (room : Room) : PublicRoomView :=
  { id := room.id, hostName := room.hostName, queue := room.queue,
    currentSong := room.currentSong,
    currentSongStartedAt := room.currentSongStartedAt,
    isPlaying := room.isPlaying,
    isPlayingFallback := room.isPlayingFallback }

/-- `GET /api/rooms/:roomId`: 404 when the room is unknown, else the
public view. -/
def fetchPublicRoomView (rooms : Rooms) (roomId : String) :
    Option PublicRoomView :=
  (getRoom rooms roomId).map publicRoomView

/-- One client→server mutation event, tagged with its payload; the
`freshId`/`now` parameters stand for the `nanoid()`/`new Date()` values
drawn when the event is handled. -/
inductive Op where
  | addSong (song : SongInput) (freshId : String) (now : Nat)
  | removeSong (songId : String) (adminToken : Option String)
  | reorderQueue (queue : List Song) (adminToken : Option String)
  | playNext (adminToken : Option String) (now : Nat)
  | setCurrentSong (song : Song) (adminToken : Option String) (now : Nat)
  | addToFallback (song : SongInput) (freshId : String) (now : Nat)
      (adminToken : Option String)
  | removeFromFallback (songId : String) (adminToken : Option String)
  | reorderFallback (playlist : List Song) (adminToken : Option String)
  | togglePlay (isPlaying : Bool) (adminToken : Option String)
  | songEnded (adminToken : Option String) (now : Nat)
  | skipSong (adminToken : Option String) (now : Nat)
  deriving Repr

/-- Dispatch one event against the store, as the socket layer does. -/
def applyOp (rooms : Rooms) (roomId : String) (op : Op) :
    Rooms × List Emit :=
  match op with
  | .addSong song freshId now => handleAddSong rooms roomId song freshId now
  | .removeSong songId tok => handleRemoveSong rooms roomId songId tok
  | .reorderQueue queue tok => handleReorderQueue rooms roomId queue tok
  | .playNext tok now => handlePlayNext rooms roomId tok now
  | .setCurrentSong song tok now =>
      handleSetCurrentSong rooms roomId song tok now
  | .addToFallback song freshId now tok =>
      handleAddToFallback rooms roomId song freshId now tok
  | .removeFromFallback songId tok =>
      handleRemoveFromFallback rooms roomId songId tok
  | .reorderFallback playlist tok =>
      handleReorderFallback rooms roomId playlist tok
  | .togglePlay isPlaying tok => handleTogglePlay rooms roomId isPlaying tok
  | .songEnded tok now => handleSongEnded rooms roomId tok now
  | .skipSong tok now => handleSkipSong rooms roomId tok now

/-- Run a sequence of events, each tagged with its target room. -/
def applyOps (rooms : Rooms) : List (String × Op) → Rooms
  | [] => rooms
  | (roomId, op) :: rest => applyOps (applyOp rooms roomId op).1 rest

/-- The trust boundary on reorder-fallback stated in the spec: every
reorder-fallback payload in the sequence is a permutation of the target
room's fallback playlist at the moment the event is handled (vacuously
true when the room does not exist). -/
def validOps (rooms : Rooms) : List (String × Op) → Prop
  | [] => True
  | (roomId, op) :: rest =>
      (match op with
       | .reorderFallback playlist _ =>
           ∀ room, getRoom rooms roomId = some room →
             playlist.Perm room.fallbackPlaylist
       | _ => True) ∧
      validOps (applyOp rooms roomId op).1 rest

/-- The fallback-cursor invariant: a valid index when the playlist is
non-empty, and 0 when it is empty. -/
def roomInv (room : Room) : Prop :=
  (room.fallbackPlaylist.length = 0 → room.fallbackIndex = 0) ∧
  (0 < room.fallbackPlaylist.length →
    room.fallbackIndex < room.fallbackPlaylist.length)

instance (room : Room) : Decidable (roomInv room) := by
  unfold roomInv
  infer_instance

/-- The fallback-cursor invariant for every room in the store. -/
def invAll (rooms : Rooms) : Prop :=
  ∀ p ∈ rooms, roomInv p.2

instance (rooms : Rooms) : Decidable (invAll rooms) := by
  unfold invAll Rooms at *
  infer_instance

/-- Iterate the song-ended trigger of advance() n times. -/
def advanceTimes (rooms : Rooms) (roomId : String)
    (adminToken : Option String) (now : Nat) : Nat → Rooms
  | 0 => rooms
  | n + 1 =>
      advanceTimes (handleSongEnded rooms roomId adminToken now).1
        roomId adminToken now n

/-- The current songs selected by n consecutive song-ended triggers of
advance(), in order. -/
def advanceSelections (rooms : Rooms) (roomId : String)
    (adminToken : Option String) (now : Nat) : Nat → List (Option Song)
  | 0 => []
  | n + 1 =>
      let rooms' := (handleSongEnded rooms roomId adminToken now).1
      ((getRoom rooms' roomId).bind (fun r => r.currentSong)) ::
        advanceSelections rooms' roomId adminToken now n

/-- Run a sequence of guest add-song events against one room. -/
def applyAddSongs (rooms : Rooms) (roomId : String) :
    List (SongInput × String × Nat) → Rooms
  | [] => rooms
  | (song, freshId, now) :: rest =>
      applyAddSongs (handleAddSong rooms roomId song freshId now).1
        roomId rest

/-- Concrete song records used to evaluate the model on closed inputs. -/
def songA : Song :=
  { videoId := "vidA", title := "Song A", thumbnail := "thA",
    channel := "chA", duration := "3:10", id := "qa1", addedAt := 1,
    addedBy := some "Alice" }

/-- A concrete fallback-playlist entry. -/
def songB : Song :=
  { videoId := "vidB", title := "Song B", thumbnail := "thB",
    channel := "chB", duration := "2:45", id := "fb1", addedAt := 2,
    addedBy := none }

/-- Another concrete fallback-playlist entry. -/
def songC : Song :=
  { videoId := "vidC", title := "Song C", thumbnail := "thC",
    channel := "chC", duration := "4:05", id := "fb2", addedAt := 3,
    addedBy := none }

/-- A concrete guest submission payload. -/
def exInputA : SongInput :=
  { videoId := "vidA", title := "Song A", thumbnail := "thA",
    channel := "chA", duration := "3:10", addedBy := some "Alice" }

/-- A concrete guest submission payload with no submitter name. -/
def exInputB : SongInput :=
  { videoId := "vidB2", title := "Song B2", thumbnail := "thB2",
    channel := "chB2", duration := "1:59", addedBy := none }

/-- A room with one guest-queued song and one fallback song. -/
def exRoomQueued : Room :=
  { id := "r", adminToken := "t", hostName := "DJ",
    queue := [songA], fallbackPlaylist := [songB], fallbackIndex := 0,
    currentSong := none, currentSongStartedAt := none,
    isPlaying := false, isPlayingFallback := false, createdAt := 0 }

/-- A store holding `exRoomQueued` under id "r". -/
def exRoomsQueued : Rooms := [("r", exRoomQueued)]

/-- A room playing a song with an empty queue and empty fallback. -/
def exRoomIdle : Room :=
  { id := "r", adminToken := "t", hostName := "DJ",
    queue := [], fallbackPlaylist := [], fallbackIndex := 0,
    currentSong := some songB, currentSongStartedAt := some 3,
    isPlaying := true, isPlayingFallback := false, createdAt := 0 }

/-- A store holding `exRoomIdle` under id "r". -/
def exRoomsIdle : Rooms := [("r", exRoomIdle)]

/-- A room with an empty guest queue and a two-song fallback playlist. -/
def exRoomFb : Room :=
  { id := "r", adminToken := "t", hostName := "DJ",
    queue := [], fallbackPlaylist := [songB, songC], fallbackIndex := 0,
    currentSong := none, currentSongStartedAt := none,
    isPlaying := false, isPlayingFallback := false, createdAt := 0 }

/-- A store holding `exRoomFb` under id "r". -/
def exRoomsFb : Rooms := [("r", exRoomFb)]

/-- A room currently playing the fallback entry `songB`, with the
cursor already advanced past it. -/
def exRoomPlayingFb : Room :=
  { id := "r", adminToken := "t", hostName := "DJ",
    queue := [], fallbackPlaylist := [songB, songC], fallbackIndex := 1,
    currentSong := some songB, currentSongStartedAt := some 4,
    isPlaying := true, isPlayingFallback := true, createdAt := 0 }

/-- A store holding `exRoomPlayingFb` under id "r". -/
def exRoomsPlayingFb : Rooms := [("r", exRoomPlayingFb)]

/-- `exRoomPlayingFb` after removing the playing entry from the
fallback playlist (the cursor clamps back to 0). -/
def exRoomAfterRemoveFb : Room :=
  { exRoomPlayingFb with fallbackPlaylist := [songC], fallbackIndex := 0 }

/-- A concrete event sequence exercising the fallback cursor. -/
def exOpsC6 : List (String × Op) :=
  [("r", Op.songEnded (some "t") 5),
   ("r", Op.addToFallback exInputB "fb3" 6 (some "t")),
   ("r", Op.removeFromFallback "fb1" (some "t")),
   ("r", Op.skipSong (some "t") 7),
   ("r", Op.removeFromFallback "fb2" (some "t")),
   ("r", Op.removeFromFallback "fb3" (some "t"))]

/-- Unfold one store entry in a lookup. -/
theorem getRoom_cons (x : String × Room) (l : Rooms) (roomId : String) :
    getRoom (x :: l) roomId =
      if x.1 = roomId then some x.2 else getRoom l roomId := by
  unfold getRoom
  rw [List.find?_cons]
  by_cases h : x.1 = roomId
  · simp [h]
  · simp [h]

/-- Unfold one store entry in a commit. -/
theorem setRoom_cons (x : String × Room) (l : Rooms) (roomId : String)
    (room : Room) :
    setRoom (x :: l) roomId room =
      (if x.1 = roomId then (x.1, room) else x) :: setRoom l roomId room := by
  simp [setRoom]

/-- Looking up the committed room after `setRoom` yields the new record,
provided the room was present. -/
theorem getRoom_setRoom_self (rooms : Rooms) (roomId : String)
    (room r' : Room) (h : getRoom rooms roomId = some room) :
    getRoom (setRoom rooms roomId r') roomId = some r' := by
  induction rooms with
  | nil => simp [getRoom] at h
  | cons x t ih =>
      rw [setRoom_cons, getRoom_cons]
      rw [getRoom_cons] at h
      by_cases hx : x.1 = roomId
      · simp [hx]
      · rw [if_neg hx] at h
        rw [if_neg hx]
        rw [if_neg hx]
        exact ih h

/-- `setRoom` leaves every other room's lookup unchanged. -/
theorem getRoom_setRoom_of_ne (rooms : Rooms) (roomId roomId' : String)
    (r' : Room) (h : roomId' ≠ roomId) :
    getRoom (setRoom rooms roomId r') roomId' = getRoom rooms roomId' := by
  induction rooms with
  | nil => simp [getRoom, setRoom]
  | cons x t ih =>
      rw [setRoom_cons, getRoom_cons, getRoom_cons]
      by_cases hx : x.1 = roomId
      · have hx' : ¬ x.1 = roomId' := fun hc => h (hc ▸ hx)
        rw [if_pos hx]
        simp only []
        rw [if_neg (show ¬ x.1 = roomId' from hx'), if_neg hx']
        exact ih
      · rw [if_neg hx]
        by_cases hq : x.1 = roomId'
        · rw [if_pos hq, if_pos hq]
        · rw [if_neg hq, if_neg hq]
          exact ih

/-- A successful lookup returns a record satisfying the store-wide
cursor invariant. -/
theorem roomInv_of_getRoom (rooms : Rooms) (roomId : String) (room : Room)
    (hinv : invAll rooms) (h : getRoom rooms roomId = some room) :
    roomInv room := by
  unfold getRoom at h
  cases hf : rooms.find? (fun p => p.1 = roomId) with
  | none => rw [hf] at h; simp at h
  | some q =>
      rw [hf] at h
      simp at h
      have hq := List.mem_of_find?_eq_some hf
      have := hinv q hq
      rw [h] at this
      exact this

/-- Committing a record that satisfies the cursor invariant preserves
the store-wide invariant. -/
theorem invAll_setRoom (rooms : Rooms) (roomId : String) (r' : Room)
    (hinv : invAll rooms) (hr : roomInv r') :
    invAll (setRoom rooms roomId r') := by
  intro q hq
  unfold setRoom at hq
  rcases List.mem_map.mp hq with ⟨p, hp, hfq⟩
  by_cases hc : p.1 = roomId
  · simp [hc] at hfq
    rw [← hfq]
    exact hr
  · simp [hc] at hfq
    rw [← hfq]
    exact hinv p hp

/-- Claim C10: a join-room event naming no existing room is a silent
no-op — the store is unchanged, the session keeps its previous
subscription, and nothing is emitted. -/
theorem C10_join_unknown_room_noop (rooms : Rooms) (sess : Option String)
    (roomId : String) (h : getRoom rooms roomId = none) :
    handleJoinRoom rooms sess roomId = (rooms, sess, []) := by
  unfold handleJoinRoom
  rw [h]

/-- Witness for C10 on a concrete store with no room "nope". -/
theorem C10_join_unknown_room_noop_witness :
    handleJoinRoom exRoomsQueued none "nope" = (exRoomsQueued, none, []) :=
  C10_join_unknown_room_noop exRoomsQueued none "nope" (by decide)

/-- Claim C9: the public room view and the join snapshot never expose
the admin credential — both are invariant under replacing the stored
credential by any other value, for every room state. -/
theorem C9_no_credential_leak (rooms : Rooms) (roomId : String)
    (room : Room) (t : String) (sess : Option String)
    (h : getRoom rooms roomId = some room) :
    publicRoomView { room with adminToken := t } = publicRoomView room ∧
    fetchPublicRoomView (setRoom rooms roomId { room with adminToken := t })
        roomId = fetchPublicRoomView rooms roomId ∧
    (handleJoinRoom (setRoom rooms roomId { room with adminToken := t })
        sess roomId).2 = (handleJoinRoom rooms sess roomId).2 := by
  refine ⟨rfl, ?_, ?_⟩
  · unfold fetchPublicRoomView
    rw [getRoom_setRoom_self rooms roomId room _ h, h]
    rfl
  · unfold handleJoinRoom
    rw [getRoom_setRoom_self rooms roomId room _ h, h]

/-- Witness for C9 on a concrete room, replacing the credential by
"stolen". -/
theorem C9_no_credential_leak_witness :
    publicRoomView { exRoomQueued with adminToken := "stolen" } =
      publicRoomView exRoomQueued ∧
    fetchPublicRoomView
        (setRoom exRoomsQueued "r"
          { exRoomQueued with adminToken := "stolen" }) "r" =
      fetchPublicRoomView exRoomsQueued "r" ∧
    (handleJoinRoom
        (setRoom exRoomsQueued "r"
          { exRoomQueued with adminToken := "stolen" }) none "r").2 =
      (handleJoinRoom exRoomsQueued none "r").2 :=
  C9_no_credential_leak exRoomsQueued "r" exRoomQueued "stolen" none
    (by decide)

/-- Claim C5: every privileged mutation whose credential is missing or
differs from the room's stored credential — or whose room identifier
names no existing room — leaves the store unchanged and broadcasts
nothing. -/
theorem C5_unauthorized_noop (rooms : Rooms) (roomId : String)
    (tok : Option String)
    (h : ∀ room, getRoom rooms roomId = some room →
      tok ≠ some room.adminToken) :
    (∀ songId, handleRemoveSong rooms roomId songId tok = (rooms, [])) ∧
    (∀ queue, handleReorderQueue rooms roomId queue tok = (rooms, [])) ∧
    (∀ now, handlePlayNext rooms roomId tok now = (rooms, [])) ∧
    (∀ song now, handleSetCurrentSong rooms roomId song tok now =
      (rooms, [])) ∧
    (∀ song freshId now,
      handleAddToFallback rooms roomId song freshId now tok = (rooms, [])) ∧
    (∀ songId, handleRemoveFromFallback rooms roomId songId tok =
      (rooms, [])) ∧
    (∀ playlist, handleReorderFallback rooms roomId playlist tok =
      (rooms, [])) ∧
    (∀ isPlaying, handleTogglePlay rooms roomId isPlaying tok =
      (rooms, [])) ∧
    (∀ now, handleSongEnded rooms roomId tok now = (rooms, [])) ∧
    (∀ now, handleSkipSong rooms roomId tok now = (rooms, [])) := by
  cases hg : getRoom rooms roomId with
  | none =>
      refine ⟨fun songId => ?_, fun queue => ?_, fun now => ?_,
        fun song now => ?_, fun song freshId now => ?_, fun songId => ?_,
        fun playlist => ?_, fun isPlaying => ?_, fun now => ?_,
        fun now => ?_⟩
      · simp [handleRemoveSong, hg]
      · simp [handleReorderQueue, hg]
      · simp [handlePlayNext, hg]
      · simp [handleSetCurrentSong, hg]
      · simp [handleAddToFallback, hg]
      · simp [handleRemoveFromFallback, hg]
      · simp [handleReorderFallback, hg]
      · simp [handleTogglePlay, hg]
      · simp [handleSongEnded, hg]
      · simp [handleSkipSong, hg]
  | some room =>
      have ht := h room hg
      refine ⟨fun songId => ?_, fun queue => ?_, fun now => ?_,
        fun song now => ?_, fun song freshId now => ?_, fun songId => ?_,
        fun playlist => ?_, fun isPlaying => ?_, fun now => ?_,
        fun now => ?_⟩
      · simp [handleRemoveSong, hg, ht]
      · simp [handleReorderQueue, hg, ht]
      · simp [handlePlayNext, hg, ht]
      · simp [handleSetCurrentSong, hg, ht]
      · simp [handleAddToFallback, hg, ht]
      · simp [handleRemoveFromFallback, hg, ht]
      · simp [handleReorderFallback, hg, ht]
      · simp [handleTogglePlay, hg, ht]
      · simp [handleSongEnded, hg, ht]
      · simp [handleSkipSong, hg, ht]

/-- Witness for C5: a missing credential on an existing room, and a
wrong credential against a nonexistent room identifier. -/
theorem C5_unauthorized_noop_witness :
    handleRemoveSong exRoomsQueued "r" "qa1" none = (exRoomsQueued, []) ∧
    handleSongEnded exRoomsQueued "missing" (some "t") 4 =
      (exRoomsQueued, []) :=
  ⟨(C5_unauthorized_noop exRoomsQueued "r" none
      (fun _ _ hc => Option.noConfusion hc)).1 "qa1",
   (C5_unauthorized_noop exRoomsQueued "missing" (some "t")
      (fun room hr _ => by simp [getRoom, List.find?] at hr)).2.2.2.2.2.2.2.2.1 4⟩

/-- Claim C7: any sequence of guest enqueues against an existing room —
with no other events in between — appends exactly the submitted songs,
wrapped with their freshly assigned identifiers, to the tail of the
guest queue in submission order; no credential is consulted and no
submission is dropped. -/
theorem C7_enqueue_fifo (rooms : Rooms) (roomId : String) (room : Room)
    (subs : List (SongInput × String × Nat))
    (h : getRoom rooms roomId = some room) :
    getRoom (applyAddSongs rooms roomId subs) roomId =
      some { room with
              queue := room.queue ++
                subs.map (fun t => mkQueueSong t.1 t.2.1 t.2.2) } := by
  induction subs generalizing rooms room with
  | nil =>
      simp only [applyAddSongs, List.map_nil, List.append_nil]
      exact h
  | cons sub rest ih =>
      obtain ⟨song, freshId, now⟩ := sub
      have hstep : (handleAddSong rooms roomId song freshId now).1 =
          setRoom rooms roomId
            { room with queue := room.queue ++ [mkQueueSong song freshId now] } := by
        unfold handleAddSong
        rw [h]
      have hget := getRoom_setRoom_self rooms roomId room
        { room with queue := room.queue ++ [mkQueueSong song freshId now] } h
      simp only [applyAddSongs, hstep]
      rw [ih _ _ hget]
      simp [List.append_assoc]

/-- Witness for C7: two concrete submissions land at the tail in
order. -/
theorem C7_enqueue_fifo_witness :
    getRoom
        (applyAddSongs exRoomsQueued "r"
          [(exInputB, "n1", 10), (exInputA, "n2", 11)]) "r" =
      some { exRoomQueued with
              queue := exRoomQueued.queue ++
                [mkQueueSong exInputB "n1" 10,
                 mkQueueSong exInputA "n2" 11] } :=
  C7_enqueue_fifo exRoomsQueued "r" exRoomQueued
    [(exInputB, "n1", 10), (exInputA, "n2", 11)] (by decide)

/-- Claim C1: with a matching admin credential and a non-empty guest
queue, each of the three advance triggers pops the queue head as the new
current song, marks it not-fallback-sourced, stamps the start time,
marks playing, and leaves the fallback playlist and cursor untouched. -/
theorem C1_queue_priority (rooms : Rooms) (roomId : String)
    (tok : Option String) (now : Nat) (room : Room) (s : Song)
    (rest : List Song) (hroom : getRoom rooms roomId = some room)
    (htok : tok = some room.adminToken) (hq : room.queue = s :: rest) :
    handlePlayNext rooms roomId tok now =
      (setRoom rooms roomId
        { room with
          currentSong := some s, currentSongStartedAt := some now,
          isPlaying := true, isPlayingFallback := false, queue := rest },
       [Emit.nowPlaying (some s) (some now) false,
        Emit.queueUpdated rest]) ∧
    handleSongEnded rooms roomId tok now =
      (setRoom rooms roomId
        { room with
          currentSong := some s, currentSongStartedAt := some now,
          isPlaying := true, isPlayingFallback := false, queue := rest },
       [Emit.nowPlaying (some s) (some now) false,
        Emit.queueUpdated rest]) ∧
    handleSkipSong rooms roomId tok now =
      (setRoom rooms roomId
        { room with
          currentSong := some s, currentSongStartedAt := some now,
          isPlaying := true, isPlayingFallback := false, queue := rest },
       [Emit.nowPlaying (some s) (some now) false,
        Emit.queueUpdated rest]) := by
  refine ⟨?_, ?_, ?_⟩
  · simp [handlePlayNext, hroom, htok, hq]
  · simp [handleSongEnded, hroom, htok, hq]
  · simp [handleSkipSong, hroom, htok, hq]

/-- Witness for C1 on a room with one queued song and a non-empty
fallback playlist. -/
theorem C1_queue_priority_witness :
    handlePlayNext exRoomsQueued "r" (some "t") 7 =
      (setRoom exRoomsQueued "r"
        { exRoomQueued with
          currentSong := some songA, currentSongStartedAt := some 7,
          isPlaying := true, isPlayingFallback := false, queue := [] },
       [Emit.nowPlaying (some songA) (some 7) false,
        Emit.queueUpdated []]) ∧
    handleSongEnded exRoomsQueued "r" (some "t") 7 =
      (setRoom exRoomsQueued "r"
        { exRoomQueued with
          currentSong := some songA, currentSongStartedAt := some 7,
          isPlaying := true, isPlayingFallback := false, queue := [] },
       [Emit.nowPlaying (some songA) (some 7) false,
        Emit.queueUpdated []]) ∧
    handleSkipSong exRoomsQueued "r" (some "t") 7 =
      (setRoom exRoomsQueued "r"
        { exRoomQueued with
          currentSong := some songA, currentSongStartedAt := some 7,
          isPlaying := true, isPlayingFallback := false, queue := [] },
       [Emit.nowPlaying (some songA) (some 7) false,
        Emit.queueUpdated []]) :=
  C1_queue_priority exRoomsQueued "r" (some "t") 7 exRoomQueued songA []
    (by decide) (by decide) (by decide)

/-- Counterexample to claim C2: on a room whose guest queue and fallback
playlist are both empty while a song is playing, play-next leaves the
room unchanged but song-ended clears it, so the two triggers do not
compute the same room-state transition. -/
theorem C2_trigger_divergence_counterexample :
    getRoom (handlePlayNext exRoomsIdle "r" (some "t") 9).1 "r" ≠
      getRoom (handleSongEnded exRoomsIdle "r" (some "t") 9).1 "r" := by
  decide

/-- Claim C2 as amended: skip-song and song-ended always compute the
identical transition; play-next agrees with them whenever the guest
queue or the fallback playlist is non-empty; when both are empty,
play-next leaves the store unchanged and broadcasts nothing. -/
theorem C2_trigger_equivalence_amended (rooms : Rooms) (roomId : String)
    (tok : Option String) (now : Nat) :
    handleSkipSong rooms roomId tok now =
      handleSongEnded rooms roomId tok now ∧
    (∀ room, getRoom rooms roomId = some room →
      (room.queue ≠ [] ∨ room.fallbackPlaylist ≠ []) →
      handlePlayNext rooms roomId tok now =
        handleSongEnded rooms roomId tok now) ∧
    (∀ room, getRoom rooms roomId = some room → room.queue = [] →
      room.fallbackPlaylist = [] →
      handlePlayNext rooms roomId tok now = (rooms, [])) := by
  refine ⟨rfl, ?_, ?_⟩
  · intro room hroom hne
    unfold handlePlayNext handleSongEnded
    rw [hroom]
    by_cases ht : tok = some room.adminToken
    · simp only [if_pos ht]
      cases hq : room.queue with
      | cons s rest => rfl
      | nil =>
          rcases hne with hne | hne
          · exact absurd hq hne
          · have hlen : room.fallbackPlaylist.length > 0 :=
              List.length_pos.mpr hne
            simp [hlen]
    · simp [ht]
  · intro room hroom hq hf
    unfold handlePlayNext
    rw [hroom]
    by_cases ht : tok = some room.adminToken
    · simp [ht, hq, hf]
    · simp [ht]

/-- Witness for the amended C2: play-next is a no-op on the idle room,
and skip-song coincides with song-ended on the queued room. -/
theorem C2_trigger_equivalence_amended_witness :
    handlePlayNext exRoomsIdle "r" (some "t") 9 = (exRoomsIdle, []) ∧
    handleSkipSong exRoomsQueued "r" (some "t") 7 =
      handleSongEnded exRoomsQueued "r" (some "t") 7 :=
  ⟨(C2_trigger_equivalence_amended exRoomsIdle "r" (some "t") 9).2.2
      exRoomIdle (by decide) (by decide) (by decide),
   (C2_trigger_equivalence_amended exRoomsQueued "r" (some "t") 7).1⟩

/-- Counterexample to claim C3: on a room with empty queue and empty
fallback, the play-next trigger does not clear the current song — the
room still holds `songB` as current and keeps playing. -/
theorem C3_playnext_no_clear_counterexample :
    getRoom (handlePlayNext exRoomsIdle "r" (some "t") 9).1 "r" =
      some exRoomIdle ∧
    exRoomIdle.currentSong ≠ none ∧ exRoomIdle.isPlaying = true := by
  decide

/-- Claim C3 as amended: with both sources empty and a matching
credential, the song-ended and skip-song triggers clear the current
song, its start timestamp, the playback flag and the fallback-sourced
flag; the play-next trigger instead leaves the store unchanged and
broadcasts nothing. -/
theorem C3_exhausted_clears_amended (rooms : Rooms) (roomId : String)
    (tok : Option String) (now : Nat) (room : Room)
    (hroom : getRoom rooms roomId = some room)
    (htok : tok = some room.adminToken) (hq : room.queue = [])
    (hf : room.fallbackPlaylist = []) :
    handleSongEnded rooms roomId tok now =
      (setRoom rooms roomId
        { room with
          currentSong := none, currentSongStartedAt := none,
          isPlaying := false, isPlayingFallback := false },
       [Emit.nowPlaying none none false]) ∧
    handleSkipSong rooms roomId tok now =
      (setRoom rooms roomId
        { room with
          currentSong := none, currentSongStartedAt := none,
          isPlaying := false, isPlayingFallback := false },
       [Emit.nowPlaying none none false]) ∧
    handlePlayNext rooms roomId tok now = (rooms, []) := by
  refine ⟨?_, ?_, ?_⟩
  · simp [handleSongEnded, hroom, htok, hq, hf]
  · simp [handleSkipSong, hroom, htok, hq, hf]
  · simp [handlePlayNext, hroom, htok, hq, hf]

/-- Witness for the amended C3 on the idle room. -/
theorem C3_exhausted_clears_amended_witness :
    handleSongEnded exRoomsIdle "r" (some "t") 9 =
      (setRoom exRoomsIdle "r"
        { exRoomIdle with
          currentSong := none, currentSongStartedAt := none,
          isPlaying := false, isPlayingFallback := false },
       [Emit.nowPlaying none none false]) ∧
    handleSkipSong exRoomsIdle "r" (some "t") 9 =
      (setRoom exRoomsIdle "r"
        { exRoomIdle with
          currentSong := none, currentSongStartedAt := none,
          isPlaying := false, isPlayingFallback := false },
       [Emit.nowPlaying none none false]) ∧
    handlePlayNext exRoomsIdle "r" (some "t") 9 = (exRoomsIdle, []) :=
  C3_exhausted_clears_amended exRoomsIdle "r" (some "t") 9 exRoomIdle
    (by decide) (by decide) (by decide) (by decide)

/-- A lookup after a commit pins down the record found there. -/
theorem frame_setRoom (rooms : Rooms) (roomId : String) (room roomU : Room)
    (h : getRoom rooms roomId = some room) (room' : Room)
    (hr : getRoom (setRoom rooms roomId roomU) roomId = some room') :
    room' = roomU := by
  rw [getRoom_setRoom_self rooms roomId room roomU h] at hr
  injection hr with hh
  exact hh.symm

/-- Claim C8: remove-song, reorder-queue, add-to-fallback,
remove-from-fallback and reorder-fallback never change the room's
current song or its start timestamp — including when the entry removed
from the fallback playlist is the one currently playing. -/
theorem C8_mutations_preserve_current (rooms : Rooms) (roomId : String)
    (room : Room) (h : getRoom rooms roomId = some room) :
    (∀ songId tok room',
      getRoom (handleRemoveSong rooms roomId songId tok).1 roomId =
        some room' →
      room'.currentSong = room.currentSong ∧
      room'.currentSongStartedAt = room.currentSongStartedAt) ∧
    (∀ queue tok room',
      getRoom (handleReorderQueue rooms roomId queue tok).1 roomId =
        some room' →
      room'.currentSong = room.currentSong ∧
      room'.currentSongStartedAt = room.currentSongStartedAt) ∧
    (∀ song freshId now tok room',
      getRoom (handleAddToFallback rooms roomId song freshId now tok).1
          roomId = some room' →
      room'.currentSong = room.currentSong ∧
      room'.currentSongStartedAt = room.currentSongStartedAt) ∧
    (∀ songId tok room',
      getRoom (handleRemoveFromFallback rooms roomId songId tok).1
          roomId = some room' →
      room'.currentSong = room.currentSong ∧
      room'.currentSongStartedAt = room.currentSongStartedAt) ∧
    (∀ playlist tok room',
      getRoom (handleReorderFallback rooms roomId playlist tok).1
          roomId = some room' →
      room'.currentSong = room.currentSong ∧
      room'.currentSongStartedAt = room.currentSongStartedAt) := by
  refine ⟨fun songId tok room' hr => ?_, fun queue tok room' hr => ?_,
    fun song freshId now tok room' hr => ?_,
    fun songId tok room' hr => ?_, fun playlist tok room' hr => ?_⟩
  · by_cases ht : tok = some room.adminToken
    · simp only [handleRemoveSong, h, if_pos ht] at hr
      rw [frame_setRoom rooms roomId room _ h room' hr]
      exact ⟨rfl, rfl⟩
    · simp only [handleRemoveSong, h, if_neg ht] at hr
      injection hr with hh
      rw [← hh]
      exact ⟨rfl, rfl⟩
  · by_cases ht : tok = some room.adminToken
    · simp only [handleReorderQueue, h, if_pos ht] at hr
      rw [frame_setRoom rooms roomId room _ h room' hr]
      exact ⟨rfl, rfl⟩
    · simp only [handleReorderQueue, h, if_neg ht] at hr
      injection hr with hh
      rw [← hh]
      exact ⟨rfl, rfl⟩
  · by_cases ht : tok = some room.adminToken
    · simp only [handleAddToFallback, h, if_pos ht] at hr
      rw [frame_setRoom rooms roomId room _ h room' hr]
      exact ⟨rfl, rfl⟩
    · simp only [handleAddToFallback, h, if_neg ht] at hr
      injection hr with hh
      rw [← hh]
      exact ⟨rfl, rfl⟩
  · by_cases ht : tok = some room.adminToken
    · simp only [handleRemoveFromFallback, h, if_pos ht] at hr
      rw [frame_setRoom rooms roomId room _ h room' hr]
      exact ⟨rfl, rfl⟩
    · simp only [handleRemoveFromFallback, h, if_neg ht] at hr
      injection hr with hh
      rw [← hh]
      exact ⟨rfl, rfl⟩
  · by_cases ht : tok = some room.adminToken
    · simp only [handleReorderFallback, h, if_pos ht] at hr
      rw [frame_setRoom rooms roomId room _ h room' hr]
      exact ⟨rfl, rfl⟩
    · simp only [handleReorderFallback, h, if_neg ht] at hr
      injection hr with hh
      rw [← hh]
      exact ⟨rfl, rfl⟩

/-- Witness for C8: removing the currently playing fallback entry
leaves the current song and its start time as they were. -/
theorem C8_mutations_preserve_current_witness :
    exRoomAfterRemoveFb.currentSong = exRoomPlayingFb.currentSong ∧
    exRoomAfterRemoveFb.currentSongStartedAt =
      exRoomPlayingFb.currentSongStartedAt :=
  (C8_mutations_preserve_current exRoomsPlayingFb "r" exRoomPlayingFb
      (by decide)).2.2.2.1 "fb1" (some "t") exRoomAfterRemoveFb (by decide)

/-- Reading a list at every position in order yields the list itself
(wrapped in `some`). -/
theorem range_map_getElem (L : List Song) :
    (List.range L.length).map (fun j => L[j]?) = L.map some := by
  induction L with
  | nil => simp
  | cons a t ih =>
      rw [List.length_cons, List.range_succ_eq_map, List.map_cons,
        List.map_map, List.map_cons]
      refine congrArg₂ _ (by simp) ?_
      rw [← ih]
      refine List.map_congr_left ?_
      intro j hj
      simp

/-- Starting anywhere, stepping the cursor cyclically for one full
round visits every index of `range N` exactly once. -/
theorem rotIdx_perm (N i : Nat) (hi : i < N) :
    ((List.range N).map (fun k => (i + k) % N)).Perm (List.range N) := by
  have hsplit : N = (N - i) + i := by omega
  have hdom : List.range N =
      List.range (N - i) ++ (List.range i).map (fun x => (N - i) + x) := by
    conv_lhs => rw [hsplit]
    exact List.range_add (N - i) i
  have hran : List.range N =
      List.range i ++ (List.range (N - i)).map (fun x => i + x) := by
    conv_lhs => rw [show N = i + (N - i) by omega]
    exact List.range_add i (N - i)
  have hmap : (List.range N).map (fun k => (i + k) % N) =
      (List.range (N - i)).map (fun x => i + x) ++ List.range i := by
    rw [hdom, List.map_append, List.map_map]
    refine congrArg₂ _ ?_ ?_
    · refine List.map_congr_left ?_
      intro a ha
      have : a < N - i := List.mem_range.mp ha
      exact Nat.mod_eq_of_lt (by omega)
    · have : (List.range i).map
          ((fun k => (i + k) % N) ∘ fun x => (N - i) + x) =
          (List.range i).map (fun x => x) := by
        refine List.map_congr_left ?_
        intro a ha
        have haN : a < i := List.mem_range.mp ha
        show (i + ((N - i) + a)) % N = a
        rw [show i + ((N - i) + a) = N + a by omega, Nat.add_mod_left]
        exact Nat.mod_eq_of_lt (by omega)
      rw [this, List.map_id']
  rw [hmap, hran]
  exact List.perm_append_comm

/-- One song-ended trigger on a room with an empty guest queue and a
non-empty fallback playlist: select the entry at the cursor, stamp the
time, advance the cursor cyclically, mark playing from fallback. -/
theorem songEnded_fallback_step (rooms : Rooms) (roomId : String)
    (now : Nat) (room : Room) (h : getRoom rooms roomId = some room)
    (hq : room.queue = []) (hf : 0 < room.fallbackPlaylist.length) :
    handleSongEnded rooms roomId (some room.adminToken) now =
      (setRoom rooms roomId
        { room with
          currentSong := room.fallbackPlaylist[room.fallbackIndex]?,
          currentSongStartedAt := some now,
          fallbackIndex :=
            (room.fallbackIndex + 1) % room.fallbackPlaylist.length,
          isPlaying := true, isPlayingFallback := true },
       [Emit.nowPlaying (room.fallbackPlaylist[room.fallbackIndex]?)
          (some now) true,
        Emit.fallbackIndexUpdated
          ((room.fallbackIndex + 1) % room.fallbackPlaylist.length)]) := by
  simp [handleSongEnded, h, hq, hf]

/-- Iterating the song-ended trigger over a room stuck on its fallback
playlist: the m selections read the playlist cyclically from the
cursor, and after m steps the cursor has moved forward by m (mod N)
while the queue, playlist and credential are untouched. -/
theorem advance_fallback_aux (roomId : String) (now : Nat) (L : List Song)
    (N : Nat) (hN : L.length = N) (hNpos : 0 < N) :
    ∀ (m : Nat) (rooms : Rooms) (room : Room) (i : Nat),
      getRoom rooms roomId = some room →
      room.queue = [] → room.fallbackPlaylist = L →
      room.fallbackIndex = i → i < N →
      advanceSelections rooms roomId (some room.adminToken) now m =
        (List.range m).map (fun k => L[(i + k) % N]?) ∧
      ∃ room',
        getRoom (advanceTimes rooms roomId (some room.adminToken) now m)
            roomId = some room' ∧
        room'.queue = [] ∧ room'.fallbackPlaylist = L ∧
        room'.fallbackIndex = (i + m) % N ∧
        room'.adminToken = room.adminToken := by
  intro m
  induction m with
  | zero =>
      intro rooms room i hroom hq hL hi hiN
      refine ⟨by simp [advanceSelections], room, hroom, hq, hL, ?_, rfl⟩
      rw [hi, Nat.add_zero, Nat.mod_eq_of_lt hiN]
  | succ n ih =>
      intro rooms room i hroom hq hL hi hiN
      have hlen : 0 < room.fallbackPlaylist.length := by
        rw [hL, hN]; exact hNpos
      have hstep := songEnded_fallback_step rooms roomId now room hroom hq hlen
      have hget1 : getRoom
          (handleSongEnded rooms roomId (some room.adminToken) now).1
          roomId = some
          { room with
            currentSong := room.fallbackPlaylist[room.fallbackIndex]?,
            currentSongStartedAt := some now,
            fallbackIndex :=
              (room.fallbackIndex + 1) % room.fallbackPlaylist.length,
            isPlaying := true, isPlayingFallback := true } := by
        rw [hstep]
        exact getRoom_setRoom_self rooms roomId room _ hroom
      have hidx1 : (room.fallbackIndex + 1) % room.fallbackPlaylist.length =
          (i + 1) % N := by
        rw [hi, hL, hN]
      have hiN1 : (i + 1) % N < N := Nat.mod_lt _ hNpos
      have ihspec := ih
        (handleSongEnded rooms roomId (some room.adminToken) now).1
        { room with
          currentSong := room.fallbackPlaylist[room.fallbackIndex]?,
          currentSongStartedAt := some now,
          fallbackIndex :=
            (room.fallbackIndex + 1) % room.fallbackPlaylist.length,
          isPlaying := true, isPlayingFallback := true }
        ((i + 1) % N) hget1 hq hL hidx1 hiN1
      obtain ⟨hsel, room', hget', hq', hL', hidx', htok'⟩ := ihspec
      constructor
      · show ((getRoom
            (handleSongEnded rooms roomId (some room.adminToken) now).1
            roomId).bind (fun r => r.currentSong)) ::
          advanceSelections
            (handleSongEnded rooms roomId (some room.adminToken) now).1
            roomId (some room.adminToken) now n =
          (List.range (n + 1)).map (fun k => L[(i + k) % N]?)
        rw [hget1, List.range_succ_eq_map, List.map_cons, List.map_map]
        refine congrArg₂ _ ?_ ?_
        · show room.fallbackPlaylist[room.fallbackIndex]? =
            L[(i + 0) % N]?
          rw [hL, hi, Nat.add_zero, Nat.mod_eq_of_lt hiN]
        · rw [hsel]
          refine List.map_congr_left ?_
          intro k hk
          show L[((i + 1) % N + k) % N]? = L[(i + Nat.succ k) % N]?
          rw [Nat.mod_add_mod, show i + 1 + k = i + Nat.succ k by omega]
      · refine ⟨room', hget', hq', hL', ?_, htok'⟩
        rw [hidx', Nat.mod_add_mod, show (i + 1) + n = i + (n + 1) by omega]

/-- Claim C4: on a room with an empty guest queue and a fallback
playlist L of length N ≥ 1 with cursor i, N consecutive advance()
calls (song-ended trigger, matching credential) select the playlist
entries cyclically in order starting at the cursor, visiting every
entry exactly once; after N calls the cursor is back at i, and the
(N+1)-th call selects the entry at i again. -/
theorem C4_fallback_cycle (rooms : Rooms) (roomId : String)
    (tok : Option String) (now : Nat) (room : Room) (L : List Song)
    (i N : Nat) (hroom : getRoom rooms roomId = some room)
    (htok : tok = some room.adminToken) (hq : room.queue = [])
    (hL : room.fallbackPlaylist = L) (hN : L.length = N)
    (hi : room.fallbackIndex = i) (hiN : i < N) :
    advanceSelections rooms roomId tok now N =
      (List.range N).map (fun k => L[(i + k) % N]?) ∧
    (advanceSelections rooms roomId tok now N).Perm (L.map some) ∧
    (∀ room', getRoom (advanceTimes rooms roomId tok now N) roomId =
        some room' →
      room'.fallbackIndex = i ∧ room'.fallbackPlaylist = L ∧
      room'.queue = []) ∧
    advanceSelections rooms roomId tok now (N + 1) =
      (List.range N).map (fun k => L[(i + k) % N]?) ++ [L[i]?] := by
  subst htok
  have hNpos : 0 < N := Nat.lt_of_le_of_lt (Nat.zero_le i) hiN
  obtain ⟨hsel, room'', hget'', hq'', hL'', hidx'', htok''⟩ :=
    advance_fallback_aux roomId now L N hN hNpos N rooms room i
      hroom hq hL hi hiN
  obtain ⟨hsel1, _⟩ :=
    advance_fallback_aux roomId now L N hN hNpos (N + 1) rooms room i
      hroom hq hL hi hiN
  refine ⟨hsel, ?_, ?_, ?_⟩
  · rw [hsel, show (List.range N).map (fun k => L[(i + k) % N]?) =
      ((List.range N).map (fun k => (i + k) % N)).map (fun j => L[j]?)
      from (List.map_map _ _ _).symm]
    have h2 := (rotIdx_perm N i hiN).map (fun j => L[j]?)
    have h3 : (List.range N).map (fun j => L[j]?) = L.map some := by
      rw [← hN]
      exact range_map_getElem L
    rw [h3] at h2
    exact h2
  · intro room' hr
    rw [hget''] at hr
    injection hr with hh
    rw [← hh]
    refine ⟨?_, hL'', hq''⟩
    rw [hidx'', Nat.add_mod_right, Nat.mod_eq_of_lt hiN]
  · rw [hsel1, List.range_succ, List.map_append, List.map_cons,
      List.map_nil, Nat.add_mod_right, Nat.mod_eq_of_lt hiN]

/-- Witness for C4: fallback playlist [songB, songC], cursor 0 — two
advances select songB then songC (each once), and a third selects songB
again. -/
theorem C4_fallback_cycle_witness :
    advanceSelections exRoomsFb "r" (some "t") 5 2 =
      (List.range 2).map (fun k => [songB, songC][(0 + k) % 2]?) ∧
    (advanceSelections exRoomsFb "r" (some "t") 5 2).Perm
      ([songB, songC].map some) ∧
    advanceSelections exRoomsFb "r" (some "t") 5 3 =
      (List.range 2).map (fun k => [songB, songC][(0 + k) % 2]?) ++
        [[songB, songC][0]?] :=
  ⟨(C4_fallback_cycle exRoomsFb "r" (some "t") 5 exRoomFb [songB, songC]
      0 2 (by decide) (by decide) (by decide) (by decide) (by decide)
      (by decide) (by decide)).1,
   (C4_fallback_cycle exRoomsFb "r" (some "t") 5 exRoomFb [songB, songC]
      0 2 (by decide) (by decide) (by decide) (by decide) (by decide)
      (by decide) (by decide)).2.1,
   (C4_fallback_cycle exRoomsFb "r" (some "t") 5 exRoomFb [songB, songC]
      0 2 (by decide) (by decide) (by decide) (by decide) (by decide)
      (by decide) (by decide)).2.2.2⟩

/-- The clamp in remove-from-fallback keeps the cursor in range (or at
0 on an empty playlist). -/
theorem clamp_inv (pl : List Song) (idx : Nat) :
    (pl.length = 0 → (if idx ≥ pl.length then 0 else idx) = 0) ∧
    (0 < pl.length → (if idx ≥ pl.length then 0 else idx) < pl.length) := by
  constructor
  · intro h0
    rw [if_pos (by omega)]
  · intro hpos
    by_cases hc : idx ≥ pl.length
    · rw [if_pos hc]
      exact hpos
    · rw [if_neg hc]
      omega

/-- Appending to the fallback playlist preserves cursor validity. -/
theorem append_inv (pl : List Song) (s : Song) (idx : Nat)
    (h : (pl.length = 0 → idx = 0) ∧ (0 < pl.length → idx < pl.length)) :
    ((pl ++ [s]).length = 0 → idx = 0) ∧
    (0 < (pl ++ [s]).length → idx < (pl ++ [s]).length) := by
  obtain ⟨h1, h2⟩ := h
  constructor
  · intro h0
    rw [List.length_append] at h0
    omega
  · intro hpos
    rw [List.length_append]
    by_cases hz : pl.length = 0
    · have := h1 hz
      simp
      omega
    · have := h2 (by omega)
      simp
      omega

/-- Replacing the playlist by one of equal length preserves cursor
validity. -/
theorem replace_same_length_inv (pl pl' : List Song) (idx : Nat)
    (hlen : pl'.length = pl.length)
    (h : (pl.length = 0 → idx = 0) ∧ (0 < pl.length → idx < pl.length)) :
    (pl'.length = 0 → idx = 0) ∧ (0 < pl'.length → idx < pl'.length) := by
  rw [hlen]
  exact h

/-- add-song preserves the cursor invariant store-wide. -/
theorem invAll_handleAddSong (rooms : Rooms) (roomId : String)
    (song : SongInput) (freshId : String) (now : Nat)
    (hinv : invAll rooms) :
    invAll (handleAddSong rooms roomId song freshId now).1 := by
  cases hg : getRoom rooms roomId with
  | none =>
      simp only [handleAddSong, hg]
      exact hinv
  | some room =>
      have hr := roomInv_of_getRoom rooms roomId room hinv hg
      simp only [handleAddSong, hg]
      exact invAll_setRoom rooms roomId _ hinv ⟨hr.1, hr.2⟩

/-- remove-song preserves the cursor invariant store-wide. -/
theorem invAll_handleRemoveSong (rooms : Rooms) (roomId : String)
    (songId : String) (tok : Option String) (hinv : invAll rooms) :
    invAll (handleRemoveSong rooms roomId songId tok).1 := by
  cases hg : getRoom rooms roomId with
  | none =>
      simp only [handleRemoveSong, hg]
      exact hinv
  | some room =>
      have hr := roomInv_of_getRoom rooms roomId room hinv hg
      by_cases ht : tok = some room.adminToken
      · simp only [handleRemoveSong, hg, if_pos ht]
        exact invAll_setRoom rooms roomId _ hinv ⟨hr.1, hr.2⟩
      · simp only [handleRemoveSong, hg, if_neg ht]
        exact hinv

/-- reorder-queue preserves the cursor invariant store-wide. -/
theorem invAll_handleReorderQueue (rooms : Rooms) (roomId : String)
    (queue : List Song) (tok : Option String) (hinv : invAll rooms) :
    invAll (handleReorderQueue rooms roomId queue tok).1 := by
  cases hg : getRoom rooms roomId with
  | none =>
      simp only [handleReorderQueue, hg]
      exact hinv
  | some room =>
      have hr := roomInv_of_getRoom rooms roomId room hinv hg
      by_cases ht : tok = some room.adminToken
      · simp only [handleReorderQueue, hg, if_pos ht]
        exact invAll_setRoom rooms roomId _ hinv ⟨hr.1, hr.2⟩
      · simp only [handleReorderQueue, hg, if_neg ht]
        exact hinv

/-- set-current-song preserves the cursor invariant store-wide. -/
theorem invAll_handleSetCurrentSong (rooms : Rooms) (roomId : String)
    (song : Song) (tok : Option String) (now : Nat) (hinv : invAll rooms) :
    invAll (handleSetCurrentSong rooms roomId song tok now).1 := by
  cases hg : getRoom rooms roomId with
  | none =>
      simp only [handleSetCurrentSong, hg]
      exact hinv
  | some room =>
      have hr := roomInv_of_getRoom rooms roomId room hinv hg
      by_cases ht : tok = some room.adminToken
      · simp only [handleSetCurrentSong, hg, if_pos ht]
        exact invAll_setRoom rooms roomId _ hinv ⟨hr.1, hr.2⟩
      · simp only [handleSetCurrentSong, hg, if_neg ht]
        exact hinv

/-- toggle-play preserves the cursor invariant store-wide. -/
theorem invAll_handleTogglePlay (rooms : Rooms) (roomId : String)
    (isPlaying : Bool) (tok : Option String) (hinv : invAll rooms) :
    invAll (handleTogglePlay rooms roomId isPlaying tok).1 := by
  cases hg : getRoom rooms roomId with
  | none =>
      simp only [handleTogglePlay, hg]
      exact hinv
  | some room =>
      have hr := roomInv_of_getRoom rooms roomId room hinv hg
      by_cases ht : tok = some room.adminToken
      · simp only [handleTogglePlay, hg, if_pos ht]
        exact invAll_setRoom rooms roomId _ hinv ⟨hr.1, hr.2⟩
      · simp only [handleTogglePlay, hg, if_neg ht]
        exact hinv

/-- add-to-fallback preserves the cursor invariant store-wide. -/
theorem invAll_handleAddToFallback (rooms : Rooms) (roomId : String)
    (song : SongInput) (freshId : String) (now : Nat)
    (tok : Option String) (hinv : invAll rooms) :
    invAll (handleAddToFallback rooms roomId song freshId now tok).1 := by
  cases hg : getRoom rooms roomId with
  | none =>
      simp only [handleAddToFallback, hg]
      exact hinv
  | some room =>
      have hr := roomInv_of_getRoom rooms roomId room hinv hg
      by_cases ht : tok = some room.adminToken
      · simp only [handleAddToFallback, hg, if_pos ht]
        exact invAll_setRoom rooms roomId _ hinv
          (append_inv room.fallbackPlaylist
            (mkFallbackSong song freshId now) room.fallbackIndex
            ⟨hr.1, hr.2⟩)
      · simp only [handleAddToFallback, hg, if_neg ht]
        exact hinv

/-- remove-from-fallback preserves the cursor invariant store-wide. -/
theorem invAll_handleRemoveFromFallback (rooms : Rooms) (roomId : String)
    (songId : String) (tok : Option String) (hinv : invAll rooms) :
    invAll (handleRemoveFromFallback rooms roomId songId tok).1 := by
  cases hg : getRoom rooms roomId with
  | none =>
      simp only [handleRemoveFromFallback, hg]
      exact hinv
  | some room =>
      by_cases ht : tok = some room.adminToken
      · simp only [handleRemoveFromFallback, hg, if_pos ht]
        exact invAll_setRoom rooms roomId _ hinv
          (clamp_inv (room.fallbackPlaylist.filter (fun s => s.id ≠ songId))
            room.fallbackIndex)
      · simp only [handleRemoveFromFallback, hg, if_neg ht]
        exact hinv

/-- reorder-fallback with a permutation payload preserves the cursor
invariant store-wide. -/
theorem invAll_handleReorderFallback (rooms : Rooms) (roomId : String)
    (playlist : List Song) (tok : Option String) (hinv : invAll rooms)
    (hperm : ∀ room, getRoom rooms roomId = some room →
      playlist.Perm room.fallbackPlaylist) :
    invAll (handleReorderFallback rooms roomId playlist tok).1 := by
  cases hg : getRoom rooms roomId with
  | none =>
      simp only [handleReorderFallback, hg]
      exact hinv
  | some room =>
      have hr := roomInv_of_getRoom rooms roomId room hinv hg
      by_cases ht : tok = some room.adminToken
      · simp only [handleReorderFallback, hg, if_pos ht]
        exact invAll_setRoom rooms roomId _ hinv
          (replace_same_length_inv room.fallbackPlaylist playlist
            room.fallbackIndex ((hperm room hg).length_eq) ⟨hr.1, hr.2⟩)
      · simp only [handleReorderFallback, hg, if_neg ht]
        exact hinv

/-- play-next preserves the cursor invariant store-wide. -/
theorem invAll_handlePlayNext (rooms : Rooms) (roomId : String)
    (tok : Option String) (now : Nat) (hinv : invAll rooms) :
    invAll (handlePlayNext rooms roomId tok now).1 := by
  cases hg : getRoom rooms roomId with
  | none =>
      simp only [handlePlayNext, hg]
      exact hinv
  | some room =>
      have hr := roomInv_of_getRoom rooms roomId room hinv hg
      by_cases ht : tok = some room.adminToken
      · cases hq : room.queue with
        | cons s rest =>
            simp only [handlePlayNext, hg, if_pos ht, hq]
            exact invAll_setRoom rooms roomId _ hinv ⟨hr.1, hr.2⟩
        | nil =>
            by_cases hf : room.fallbackPlaylist.length > 0
            · simp only [handlePlayNext, hg, if_pos ht, hq, if_pos hf]
              exact invAll_setRoom rooms roomId _ hinv
                ⟨fun h0 => absurd (h0 ▸ hf) (Nat.lt_irrefl 0),
                 fun _ => Nat.mod_lt _ hf⟩
            · simp only [handlePlayNext, hg, if_pos ht, hq, if_neg hf]
              exact hinv
      · simp only [handlePlayNext, hg, if_neg ht]
        exact hinv

/-- song-ended preserves the cursor invariant store-wide. -/
theorem invAll_handleSongEnded (rooms : Rooms) (roomId : String)
    (tok : Option String) (now : Nat) (hinv : invAll rooms) :
    invAll (handleSongEnded rooms roomId tok now).1 := by
  cases hg : getRoom rooms roomId with
  | none =>
      simp only [handleSongEnded, hg]
      exact hinv
  | some room =>
      have hr := roomInv_of_getRoom rooms roomId room hinv hg
      by_cases ht : tok = some room.adminToken
      · cases hq : room.queue with
        | cons s rest =>
            simp only [handleSongEnded, hg, if_pos ht, hq]
            exact invAll_setRoom rooms roomId _ hinv ⟨hr.1, hr.2⟩
        | nil =>
            by_cases hf : room.fallbackPlaylist.length > 0
            · simp only [handleSongEnded, hg, if_pos ht, hq, if_pos hf]
              exact invAll_setRoom rooms roomId _ hinv
                ⟨fun h0 => absurd (h0 ▸ hf) (Nat.lt_irrefl 0),
                 fun _ => Nat.mod_lt _ hf⟩
            · simp only [handleSongEnded, hg, if_pos ht, hq, if_neg hf]
              exact invAll_setRoom rooms roomId _ hinv ⟨hr.1, hr.2⟩
      · simp only [handleSongEnded, hg, if_neg ht]
        exact hinv

/-- skip-song preserves the cursor invariant store-wide. -/
theorem invAll_handleSkipSong (rooms : Rooms) (roomId : String)
    (tok : Option String) (now : Nat) (hinv : invAll rooms) :
    invAll (handleSkipSong rooms roomId tok now).1 := by
  cases hg : getRoom rooms roomId with
  | none =>
      simp only [handleSkipSong, hg]
      exact hinv
  | some room =>
      have hr := roomInv_of_getRoom rooms roomId room hinv hg
      by_cases ht : tok = some room.adminToken
      · cases hq : room.queue with
        | cons s rest =>
            simp only [handleSkipSong, hg, if_pos ht, hq]
            exact invAll_setRoom rooms roomId _ hinv ⟨hr.1, hr.2⟩
        | nil =>
            by_cases hf : room.fallbackPlaylist.length > 0
            · simp only [handleSkipSong, hg, if_pos ht, hq, if_pos hf]
              exact invAll_setRoom rooms roomId _ hinv
                ⟨fun h0 => absurd (h0 ▸ hf) (Nat.lt_irrefl 0),
                 fun _ => Nat.mod_lt _ hf⟩
            · simp only [handleSkipSong, hg, if_pos ht, hq, if_neg hf]
              exact invAll_setRoom rooms roomId _ hinv ⟨hr.1, hr.2⟩
      · simp only [handleSkipSong, hg, if_neg ht]
        exact hinv

/-- A freshly created room satisfies the cursor invariant (empty
playlist, cursor 0), and adding it preserves the store invariant. -/
theorem invAll_createRoom (rooms : Rooms)
    (hostName roomId adminToken : String) (now : Nat)
    (hinv : invAll rooms) :
    invAll (createRoom rooms hostName roomId adminToken now) := by
  intro p hp
  rcases List.mem_cons.mp hp with hp | hp
  · rw [hp]
    exact ⟨fun _ => rfl, fun h => absurd h (by simp)⟩
  · exact hinv p hp

/-- Dispatching any single event preserves the store invariant, given
the reorder-fallback trust boundary. -/
theorem invAll_applyOp (rooms : Rooms) (roomId : String) (op : Op)
    (hinv : invAll rooms)
    (hval : match op with
      | .reorderFallback playlist _ =>
          ∀ room, getRoom rooms roomId = some room →
            playlist.Perm room.fallbackPlaylist
      | _ => True) :
    invAll (applyOp rooms roomId op).1 := by
  cases op with
  | addSong song freshId now =>
      exact invAll_handleAddSong rooms roomId song freshId now hinv
  | removeSong songId tok =>
      exact invAll_handleRemoveSong rooms roomId songId tok hinv
  | reorderQueue queue tok =>
      exact invAll_handleReorderQueue rooms roomId queue tok hinv
  | playNext tok now =>
      exact invAll_handlePlayNext rooms roomId tok now hinv
  | setCurrentSong song tok now =>
      exact invAll_handleSetCurrentSong rooms roomId song tok now hinv
  | addToFallback song freshId now tok =>
      exact invAll_handleAddToFallback rooms roomId song freshId now tok hinv
  | removeFromFallback songId tok =>
      exact invAll_handleRemoveFromFallback rooms roomId songId tok hinv
  | reorderFallback playlist tok =>
      exact invAll_handleReorderFallback rooms roomId playlist tok hinv hval
  | togglePlay isPlaying tok =>
      exact invAll_handleTogglePlay rooms roomId isPlaying tok hinv
  | songEnded tok now =>
      exact invAll_handleSongEnded rooms roomId tok now hinv
  | skipSong tok now =>
      exact invAll_handleSkipSong rooms roomId tok now hinv

/-- Running any valid event sequence preserves the store invariant. -/
theorem invAll_applyOps (ops : List (String × Op)) :
    ∀ rooms : Rooms, invAll rooms → validOps rooms ops →
      invAll (applyOps rooms ops) := by
  induction ops with
  | nil =>
      intro rooms hinv _
      exact hinv
  | cons hd tl ih =>
      obtain ⟨roomId, op⟩ := hd
      intro rooms hinv hval
      obtain ⟨hv1, hv2⟩ := hval
      exact ih _ (invAll_applyOp rooms roomId op hinv hv1) hv2

/-- Claim C6: starting from any store whose rooms all satisfy the
fallback-cursor invariant (valid index when non-empty, 0 when empty),
every sequence of events — with reorder-fallback payloads restricted to
permutations of the target room's current playlist — keeps the
invariant; in particular the remove-from-fallback clamp never leaves
the cursor past the playlist's end. -/
theorem C6_cursor_invariant (rooms : Rooms) (ops : List (String × Op))
    (hinv : invAll rooms) (hval : validOps rooms ops) :
    invAll (applyOps rooms ops) :=
  invAll_applyOps ops rooms hinv hval

/-- Witness for C6 on a concrete store and a six-event sequence that
plays from fallback, grows, shrinks and empties the playlist. -/
theorem C6_cursor_invariant_witness :
    invAll (applyOps exRoomsFb exOpsC6) :=
  C6_cursor_invariant exRoomsFb exOpsC6 (by decide) (by simp [validOps])
